import Mathlib

/-!
Shallow embedding of `src/server/scripts/migrate-workspace-extensions.py`:
the workspace-extension migration script (normalizer, todos-inclusion
policy, plan builder, apply engine) together with theorems checking the
specification's claims about it.

Decoded JSON values are modelled by the inductive `Json` below (objects as
association lists with unique keys, as produced by `json.loads`); file
reading, parsing and serialization are modelled by explicit parameters, and
the filesystem by an association list from path strings to file contents.
-/

namespace Migrate

/-- A decoded JSON value as produced by Python's `json.loads` (`None`,
`bool`, `int`, `str`, `list`, `dict`); floats are not used by any claim and
are omitted. -/
inductive Json where
  | null
  | bool (b : Bool)
  | num (n : Int)
  | str (s : String)
  | arr (items : List Json)
  | obj (fields : List (String × Json))

/-- Dictionary lookup (`d.get(k)` returning `None` as `none`): first
matching key, association lists standing for dicts with unique keys. -/
def getKey {α : Type} : List (String × α) → String → Option α
  | [], _ => none
  | (k', v) :: rest, k => if k' = k then some v else getKey rest k

/-- `d.get(k)` where Python's `None` result is the JSON null value. -/
def getD (fields : List (String × Json)) (k : String) : Json :=
  (getKey fields k).getD .null

/-- Dictionary assignment `d[k] = v`: replaces the first binding of `k` in
place (Python dicts keep the insertion position of an existing key), or
appends a new binding at the end. -/
def setKey {α : Type} : List (String × α) → String → α → List (String × α)
  | [], k, v => [(k, v)]
  | (k', v') :: rest, k, v =>
    if k' = k then (k, v) :: rest else (k', v') :: setKey rest k v

/-- Removal of every binding of a key. -/
def removeKey {α : Type} (m : List (String × α)) (k : String) : List (String × α) :=
  m.filter (fun kv => kv.1 != k)

/-- Python truthiness (`bool(v)`) of a decoded JSON value. -/
def pythonTruthy : Json → Bool
  | .null => false
  | .bool b => b
  | .num n => n != 0
  | .str s => s != ""
  | .arr items => !items.isEmpty
  | .obj fields => !fields.isEmpty

/-- A single-quote character, kept out of string literals. -/
def squote : String := String.singleton (Char.ofNat 39)

/-- Python `repr` of a decoded JSON value (string escaping simplified to
plain single quotes; no claim examines rendered container values). -/
def pyRepr : Json → String
  | .null => "None"
  | .bool b => if b then "True" else "False"
  | .num n => toString n
  | .str s => squote ++ s ++ squote
  | .arr items =>
    "[" ++ String.intercalate ", " (items.attach.map (fun x => pyRepr x.1)) ++ "]"
  | .obj fields =>
    "\x7b" ++
      String.intercalate ", "
        (fields.attach.map (fun kv => squote ++ kv.1.1 ++ squote ++ ": " ++ pyRepr kv.1.2)) ++
      "\x7d"
decreasing_by
  · have := List.sizeOf_lt_of_mem x.2
    simp only [Json.arr.sizeOf_spec]
    omega
  · have h1 := List.sizeOf_lt_of_mem kv.2
    have h2 : sizeOf kv.1.2 < sizeOf kv.1 := by
      obtain ⟨a, b⟩ := kv.1
      simp only [Prod.mk.sizeOf_spec]
      omega
    simp only [Json.obj.sizeOf_spec]
    omega

/-- Python `str` of a decoded JSON value: identity on strings, `repr`
otherwise. -/
def pyStr (j : Json) : String :=
  match j with
  | .str s => s
  | _ => pyRepr j

/-- Python's `str.strip()` with no argument: removes leading and trailing
whitespace characters (ASCII whitespace; the Unicode-space edge cases are
exercised by no claim). -/
def pyStrip (s : String) : String :=
  String.mk (((s.toList.dropWhile Char.isWhitespace).reverse.dropWhile
    Char.isWhitespace).reverse)

/-- The loop body of `normalize_extensions`: walks the list keeping, in
order, string items whose trimmed form is non-empty and not already seen. -/
def normLoop (seen : List String) : List Json → List String
  | [] => []
  | item :: rest =>
    match item with
    | .str s =>
      if pyStrip s = "" then normLoop seen rest
      else if pyStrip s ∈ seen then normLoop seen rest
      else pyStrip s :: normLoop (pyStrip s :: seen) rest
    | _ => normLoop seen rest

/-- `normalize_extensions(value)`: non-list values normalize to the empty
list; list values keep trimmed, non-empty, first-occurrence string items. -/
def normalize_extensions : Json → List String
  | .arr items => normLoop [] items
  | _ => []

/-- `should_include_todos(mode, todos_path)`: the filesystem probe
`todos_path.exists()` is modelled by the boolean `todos_exists`. -/
def should_include_todos (mode : String) (todos_exists : Bool) : Bool :=
  if mode = "always" then true
  else if mode = "never" then false
  else todos_exists

/-- `pathlib.PurePath.stem` of a final path component: the name minus its
suffix, where a suffix runs from the last dot only when that dot is neither
the first nor the last character. -/
def pathStem (name : String) : String :=
  let cs := name.toList
  match ((List.range cs.length).filter (fun i => cs.getD i ' ' = '.')).getLast? with
  | some i => if 0 < i ∧ i < cs.length - 1 then String.mk (cs.take i) else name
  | none => name

/-- The `WorkspacePlan` dataclass. -/
structure WorkspacePlan where
  path : String
  user_id : String
  workspace_id : String
  name : String
  changed : Bool
  skipped : Bool
  reason : String
  before_mode : Option String
  before_extensions : List String
  after_mode : String
  after_extensions : List String
  error : Option String := none
deriving DecidableEq

/-- `build_plan(path, include_todos, force)`. The outcome of
`json.loads(path.read_text(encoding="utf-8"))` — any exception mapped to
its message — is passed in as `parsed`; paths are strings with `/` as the
part separator. -/
def build_plan (path : String) (parsed : Except String Json)
    (include_todos force : Bool) : WorkspacePlan :=
  let rel_parts := path.splitOn "/"
  let user_id :=
    if rel_parts.length ≥ 2 then (rel_parts.getD (rel_parts.length - 2) "unknown")
    else "unknown"
  let workspace_id := pathStem (rel_parts.getLastD path)
  match parsed with
  | .error err =>
    { path := path, user_id := user_id, workspace_id := workspace_id,
      name := workspace_id, changed := false, skipped := true,
      reason := "parse-error", before_mode := none, before_extensions := [],
      after_mode := "explicit", after_extensions := [], error := some err }
  | .ok data =>
    match data with
    | .obj fields =>
      let name := if pythonTruthy (getD fields "name") then pyStr (getD fields "name")
                  else workspace_id
      let before_mode : Option String :=
        match getKey fields "extensionMode" with
        | some (.str s) => some s
        | _ => none
      let before_extensions := normalize_extensions (getD fields "extensions")
      if before_mode = some "explicit" ∧ ¬force then
        { path := path, user_id := user_id, workspace_id := workspace_id,
          name := name, changed := false, skipped := true,
          reason := "already-explicit", before_mode := before_mode,
          before_extensions := before_extensions, after_mode := "explicit",
          after_extensions := before_extensions, error := none }
      else
        let base := if force then before_extensions else []
        let withMemory :=
          if pythonTruthy (getD fields "memoryEnabled") ∧ "memory" ∉ base
          then base ++ ["memory"] else base
        let after_extensions :=
          if include_todos ∧ "todos" ∉ withMemory
          then withMemory ++ ["todos"] else withMemory
        { path := path, user_id := user_id, workspace_id := workspace_id,
          name := name,
          changed := before_mode != some "explicit" || before_extensions != after_extensions,
          skipped := false, reason := "migrate", before_mode := before_mode,
          before_extensions := before_extensions, after_mode := "explicit",
          after_extensions := after_extensions, error := none }
    | _ =>
      { path := path, user_id := user_id, workspace_id := workspace_id,
        name := workspace_id, changed := false, skipped := true,
        reason := "invalid-json-root", before_mode := none,
        before_extensions := [], after_mode := "explicit",
        after_extensions := [],
        error := some "workspace file root must be a JSON object" }

/-- The filesystem: an association list from path strings to file
contents (raw text). -/
abbrev FS := List (String × String)

/-- `path.relative_to(base)` on slash-separated path strings: strips the
`base ++ "/"` prefix, failing (Python raises `ValueError`) when `path` is
not under `base`. -/
def relativeTo (path base : String) : Option String :=
  if (base ++ "/").toList.isPrefixOf path.toList then
    some (String.mk (path.toList.drop (base ++ "/").toList.length))
  else none

/-- The body of `apply_plan`'s `try` block for one plan: re-read, re-parse,
check the root is an object, copy the original bytes to the backup path,
set `extensionMode` and `extensions` on the in-memory object, write the
serialization to a sibling `.tmp` file and rename it over the original.
`parse` stands for `json.loads` and `serialize` for
`json.dumps(·, indent=2) + "\n"`; any raised exception is the `.error`
case, carrying its message. -/
def apply_one (parse : String → Except String Json) (serialize : Json → String)
    (workspaces_dir backup_dir : String) (fs : FS) (plan : WorkspacePlan) :
    Except String FS :=
  match getKey fs plan.path with
  | none => .error "file not found"
  | some content =>
    match parse content with
    | .error e => .error e
    | .ok raw =>
      match raw with
      | .obj fields =>
        match relativeTo plan.path workspaces_dir with
        | none => .error ("path is not relative to " ++ workspaces_dir)
        | some rel_path =>
          let backup_path := backup_dir ++ "/" ++ rel_path
          let fs1 := setKey fs backup_path content
          let fields1 := setKey fields "extensionMode" (.str plan.after_mode)
          let fields2 := setKey fields1 "extensions"
            (.arr (plan.after_extensions.map .str))
          let serialized := serialize (.obj fields2)
          let tmp_path := plan.path ++ ".tmp"
          let fs2 := setKey fs1 tmp_path serialized
          .ok (setKey (removeKey fs2 tmp_path) plan.path serialized)
      | _ => .error "workspace root is not a JSON object"

/-- The state threaded through `apply_plan`'s loop: the filesystem, the
`changed` and `failed` tallies, and the stderr log lines. -/
structure ApplyState where
  fs : FS
  changed : Nat
  failed : Nat
  log : List String
deriving DecidableEq

/-- The stderr line printed when applying one plan fails. -/
def applyErrMsg (plan : WorkspacePlan) (err : String) : String :=
  "[error] failed to update " ++ plan.path ++ ": " ++ err

/-- `apply_plan(plans, workspaces_dir, backup_dir)`: for every changed,
non-skipped plan, attempt `apply_one`; a success bumps `changed`, a caught
exception bumps `failed` and logs the path and cause; either way the loop
continues with the remaining plans. -/
def apply_plan (parse : String → Except String Json) (serialize : Json → String)
    (workspaces_dir backup_dir : String) :
    List WorkspacePlan → ApplyState → ApplyState
  | [], st => st
  | plan :: rest, st =>
    if !plan.changed || plan.skipped then
      apply_plan parse serialize workspaces_dir backup_dir rest st
    else
      match apply_one parse serialize workspaces_dir backup_dir st.fs plan with
      | .ok fs1 =>
        apply_plan parse serialize workspaces_dir backup_dir rest
          { st with fs := fs1, changed := st.changed + 1 }
      | .error e =>
        apply_plan parse serialize workspaces_dir backup_dir rest
          { st with failed := st.failed + 1,
                    log := st.log ++ [applyErrMsg plan e] }

/-! Specification-side definitions, written from the spec's words, to be
compared with the embedded code. -/

/-- Spec-side: the contribution of one list item to the normalized
extension list — string items keep their trimmed form when non-empty,
everything else is dropped. -/
def trimmedString : Json → Option String
  | .str s => if pyStrip s = "" then none else some (pyStrip s)
  | _ => none

/-- Spec-side: deduplication keeping the first occurrence and its
position. -/
def dedupFirst (seen : List String) : List String → List String
  | [] => []
  | s :: rest =>
    if s ∈ seen then dedupFirst seen rest else s :: dedupFirst (s :: seen) rest

/-- Spec-side: the after-extension set of a non-skipped plan — start from
the normalized existing list when `force` is true and from the empty list
otherwise, then append `"memory"` when the memory flag is on and it is
absent, then append `"todos"` when the todos-inclusion boolean is on and it
is absent. -/
def afterExtensionsSpec (normalized : List String) (memoryOn todosOn force : Bool) :
    List String :=
  let base := if force then normalized else []
  let withMemory := if memoryOn ∧ "memory" ∉ base then base ++ ["memory"] else base
  if todosOn ∧ "todos" ∉ withMemory then withMemory ++ ["todos"] else withMemory

/-! Concrete parse and serialize functions used to instantiate theorems at
concrete inputs. -/

/-- A concrete parse function: one well-formed file content, everything
else a parse error. -/
def parse0 : String → Except String Json := fun s =>
  if s = "good" then .ok (.obj [("memoryEnabled", .bool true)]) else .error "bad json"

/-- A concrete serialization function. -/
def serialize0 : Json → String := fun _ => "SER"

/-- A concrete plan for instantiating the apply-engine theorems. -/
def plan0 : WorkspacePlan :=
  build_plan "ws/u1/w1.json" (.ok (.obj [("memoryEnabled", .bool true)])) false false

/-! Association-list lemmas. -/

theorem getKey_setKey_self {α : Type} (m : List (String × α)) (k : String) (v : α) :
    getKey (setKey m k v) k = some v := by
  induction m with
  | nil => simp [setKey, getKey]
  | cons kv rest ih =>
    by_cases h : kv.1 = k
    · simp [setKey, getKey, h]
    · obtain ⟨k1, v1⟩ := kv
      simp only at h
      simp [setKey, getKey, h, ih]

theorem getKey_setKey_ne {α : Type} (m : List (String × α)) (k k' : String) (v : α)
    (h : k' ≠ k) : getKey (setKey m k v) k' = getKey m k' := by
  induction m with
  | nil => simp [setKey, getKey, Ne.symm h]
  | cons kv rest ih =>
    obtain ⟨k1, v1⟩ := kv
    by_cases h1 : k1 = k
    · subst h1
      simp [setKey, getKey, Ne.symm h]
    · by_cases h2 : k1 = k'
      · simp [setKey, getKey, h1, h2, h]
      · simp [setKey, getKey, h1, h2, ih]

theorem getKey_removeKey_ne {α : Type} (m : List (String × α)) (k k' : String)
    (h : k' ≠ k) : getKey (removeKey m k) k' = getKey m k' := by
  induction m with
  | nil => simp [removeKey, getKey]
  | cons kv rest ih =>
    obtain ⟨k1, v1⟩ := kv
    by_cases h1 : k1 = k
    · subst h1
      simp only [removeKey, List.filter_cons] at ih ⊢
      simp [getKey, Ne.symm h, ih]
    · simp only [removeKey, List.filter_cons] at ih ⊢
      by_cases h2 : k1 = k'
      · simp [getKey, h1, h2, h]
      · simp [getKey, h1, h2, ih]

/-- The imperative normalization loop equals filtering then first-occurrence
deduplication. -/
theorem normLoop_eq_dedupFirst (xs : List Json) (seen : List String) :
    normLoop seen xs = dedupFirst seen (xs.filterMap trimmedString) := by
  induction xs generalizing seen with
  | nil => simp [normLoop, dedupFirst]
  | cons x rest ih =>
    cases x with
    | str s =>
      by_cases h : pyStrip s = ""
      · simp [normLoop, trimmedString, h, ih]
      · by_cases h2 : pyStrip s ∈ seen
        · simp [normLoop, trimmedString, h, h2, dedupFirst, ih]
        · simp [normLoop, trimmedString, h, h2, dedupFirst, ih]
    | null => simp [normLoop, trimmedString, ih]
    | bool b => simp [normLoop, trimmedString, ih]
    | num n => simp [normLoop, trimmedString, ih]
    | arr items => simp [normLoop, trimmedString, ih]
    | obj fields => simp [normLoop, trimmedString, ih]

/-- Tally bookkeeping of the apply loop: `changed` plus `failed` grows by
exactly the number of changed, non-skipped plans. -/
theorem apply_plan_count (parse : String → Except String Json)
    (serialize : Json → String) (wdir bdir : String)
    (plans : List WorkspacePlan) (st : ApplyState) :
    (apply_plan parse serialize wdir bdir plans st).changed +
      (apply_plan parse serialize wdir bdir plans st).failed =
    st.changed + st.failed +
      (plans.filter (fun p => p.changed && !p.skipped)).length := by
  induction plans generalizing st with
  | nil => simp [apply_plan]
  | cons p rest ih =>
    by_cases h : (!p.changed || p.skipped) = true
    · have hf : (p.changed && !p.skipped) = false := by
        cases hc : p.changed <;> cases hs : p.skipped <;> simp_all
      simp [apply_plan, h, List.filter_cons, hf, ih]
    · have hf : (p.changed && !p.skipped) = true := by
        cases hc : p.changed <;> cases hs : p.skipped <;> simp_all
      simp only [apply_plan, h, if_false, Bool.false_eq_true]
      cases he : apply_one parse serialize wdir bdir st.fs p with
      | ok fs1 =>
        simp [List.filter_cons, hf, ih]
        omega
      | error e =>
        simp [List.filter_cons, hf, ih]
        omega

/-- Claim C8: `normalize_extensions` is total; every non-list input returns
the empty list; every list input keeps, in first-occurrence order, exactly
the string items whose whitespace-trimmed form is non-empty and not a
duplicate of an earlier kept item, dropping non-string items silently; in
particular `["memory", " memory ", "", 5, "todos", "memory"]` normalizes to
`["memory", "todos"]`. -/
theorem normalize_extensions_characterization :
    (∀ j : Json, (∀ xs, j ≠ .arr xs) → normalize_extensions j = []) ∧
    (∀ xs : List Json,
      normalize_extensions (.arr xs) = dedupFirst [] (xs.filterMap trimmedString)) ∧
    normalize_extensions
        (.arr [.str "memory", .str " memory ", .str "", .num 5, .str "todos",
               .str "memory"]) = ["memory", "todos"] := by
  refine ⟨?_, ?_, ?_⟩
  · intro j hj
    cases j with
    | arr xs => exact absurd rfl (hj xs)
    | null => rfl
    | bool b => rfl
    | num n => rfl
    | str s => rfl
    | obj fields => rfl
  · intro xs
    exact normLoop_eq_dedupFirst xs []
  · decide

/-- Witness for C8 at the concrete non-list input `null`. -/
theorem normalize_extensions_characterization_witness :
    normalize_extensions .null = [] :=
  normalize_extensions_characterization.1 .null (fun _ h => Json.noConfusion h)

/-- Claim C9: `should_include_todos` returns true for mode `"always"` and
false for mode `"never"` regardless of the probe file, and for mode
`"auto"` returns exactly the probe file's existence. -/
theorem should_include_todos_cases :
    (∀ todos_exists : Bool, should_include_todos "always" todos_exists = true) ∧
    (∀ todos_exists : Bool, should_include_todos "never" todos_exists = false) ∧
    (∀ todos_exists : Bool, should_include_todos "auto" todos_exists = todos_exists) := by
  refine ⟨fun b => rfl, fun b => ?_, fun b => ?_⟩
  · simp [should_include_todos]
  · simp [should_include_todos]

/-- Claim C1: planning a file whose parsed object has
`extensionMode = "explicit"` with `force = false` short-circuits: the plan
is skipped with reason `already-explicit`, not changed, and the before and
after states are identical — after-mode `"explicit"` and after-extensions
equal to the normalized before-extensions. -/
theorem build_plan_already_explicit (path : String) (fields : List (String × Json))
    (include_todos : Bool)
    (h : getKey fields "extensionMode" = some (.str "explicit")) :
    (build_plan path (.ok (.obj fields)) include_todos false).skipped = true ∧
    (build_plan path (.ok (.obj fields)) include_todos false).reason = "already-explicit" ∧
    (build_plan path (.ok (.obj fields)) include_todos false).changed = false ∧
    (build_plan path (.ok (.obj fields)) include_todos false).before_mode = some "explicit" ∧
    (build_plan path (.ok (.obj fields)) include_todos false).after_mode = "explicit" ∧
    (build_plan path (.ok (.obj fields)) include_todos false).before_extensions =
      normalize_extensions (getD fields "extensions") ∧
    (build_plan path (.ok (.obj fields)) include_todos false).after_extensions =
      (build_plan path (.ok (.obj fields)) include_todos false).before_extensions := by
  simp [build_plan, h]

/-- Witness for C1 at a concrete already-explicit file. -/
theorem build_plan_already_explicit_witness :
    (build_plan "ws/u1/w1.json"
        (.ok (.obj [("extensionMode", .str "explicit"), ("extensions", .arr [.str "x"])]))
        true false).skipped = true ∧
    (build_plan "ws/u1/w1.json"
        (.ok (.obj [("extensionMode", .str "explicit"), ("extensions", .arr [.str "x"])]))
        true false).reason = "already-explicit" ∧
    (build_plan "ws/u1/w1.json"
        (.ok (.obj [("extensionMode", .str "explicit"), ("extensions", .arr [.str "x"])]))
        true false).changed = false ∧
    (build_plan "ws/u1/w1.json"
        (.ok (.obj [("extensionMode", .str "explicit"), ("extensions", .arr [.str "x"])]))
        true false).before_mode = some "explicit" ∧
    (build_plan "ws/u1/w1.json"
        (.ok (.obj [("extensionMode", .str "explicit"), ("extensions", .arr [.str "x"])]))
        true false).after_mode = "explicit" ∧
    (build_plan "ws/u1/w1.json"
        (.ok (.obj [("extensionMode", .str "explicit"), ("extensions", .arr [.str "x"])]))
        true false).before_extensions =
      normalize_extensions (getD [("extensionMode", .str "explicit"),
        ("extensions", .arr [.str "x"])] "extensions") ∧
    (build_plan "ws/u1/w1.json"
        (.ok (.obj [("extensionMode", .str "explicit"), ("extensions", .arr [.str "x"])]))
        true false).after_extensions =
    (build_plan "ws/u1/w1.json"
        (.ok (.obj [("extensionMode", .str "explicit"), ("extensions", .arr [.str "x"])]))
        true false).before_extensions :=
  build_plan_already_explicit "ws/u1/w1.json"
    [("extensionMode", .str "explicit"), ("extensions", .arr [.str "x"])] true rfl

/-- Claim C2: every non-skipped plan's after-extensions equal the spec's
formula — start from the normalized existing list when `force` is true and
the empty list otherwise, append `"memory"` when `memoryEnabled` is truthy
and absent, then append `"todos"` when the inclusion boolean is true and
absent, in that order. -/
theorem build_plan_after_extensions (path : String) (fields : List (String × Json))
    (include_todos force : Bool)
    (h : (build_plan path (.ok (.obj fields)) include_todos force).skipped = false) :
    (build_plan path (.ok (.obj fields)) include_todos force).after_extensions =
      afterExtensionsSpec (normalize_extensions (getD fields "extensions"))
        (pythonTruthy (getD fields "memoryEnabled")) include_todos force := by
  simp only [build_plan] at h ⊢
  split at h
  next hcond => simp at h
  next hcond =>
    rw [if_neg hcond]
    rfl

/-- Witness for C2: `memoryEnabled=true`, no prior extensions,
`force=false`, inclusion `false` — the after-extensions are exactly
`["memory"]` (the spec formula evaluates to that). -/
theorem build_plan_after_extensions_witness :
    (build_plan "ws/u1/w1.json" (.ok (.obj [("memoryEnabled", .bool true)]))
        false false).after_extensions =
      afterExtensionsSpec
        (normalize_extensions (getD [("memoryEnabled", .bool true)] "extensions"))
        (pythonTruthy (getD [("memoryEnabled", .bool true)] "memoryEnabled"))
        false false :=
  build_plan_after_extensions "ws/u1/w1.json" [("memoryEnabled", .bool true)]
    false false (by decide)

/-- Claim C3: for every non-skipped plan, `changed` holds iff the before
mode was not `"explicit"` or the before and after extension lists differ as
ordered lists. -/
theorem build_plan_changed_iff (path : String) (parsed : Except String Json)
    (include_todos force : Bool)
    (h : (build_plan path parsed include_todos force).skipped = false) :
    ((build_plan path parsed include_todos force).changed = true ↔
      ((build_plan path parsed include_todos force).before_mode ≠ some "explicit" ∨
       (build_plan path parsed include_todos force).before_extensions ≠
         (build_plan path parsed include_todos force).after_extensions)) := by
  cases parsed with
  | error e => simp [build_plan] at h
  | ok j =>
    cases j with
    | obj fields =>
      simp only [build_plan] at h ⊢
      split at h
      next hcond => simp at h
      next hcond =>
        rw [if_neg hcond]
        simp [bne_iff_ne]
    | null => simp [build_plan] at h
    | bool b => simp [build_plan] at h
    | num n => simp [build_plan] at h
    | str s => simp [build_plan] at h
    | arr items => simp [build_plan] at h

/-- Witness for C3 at a concrete legacy file that becomes changed. -/
theorem build_plan_changed_iff_witness :
    ((build_plan "ws/u1/w1.json" (.ok (.obj [("memoryEnabled", .bool true)]))
        false false).changed = true ↔
      ((build_plan "ws/u1/w1.json" (.ok (.obj [("memoryEnabled", .bool true)]))
          false false).before_mode ≠ some "explicit" ∨
       (build_plan "ws/u1/w1.json" (.ok (.obj [("memoryEnabled", .bool true)]))
          false false).before_extensions ≠
         (build_plan "ws/u1/w1.json" (.ok (.obj [("memoryEnabled", .bool true)]))
            false false).after_extensions)) :=
  build_plan_changed_iff "ws/u1/w1.json" (.ok (.obj [("memoryEnabled", .bool true)]))
    false false (by decide)

/-- Claim C10: with `force = false`, a non-skipped plan includes
`"memory"` iff the file's `memoryEnabled` value is Python-truthy — any
truthy JSON value (non-empty string, non-zero number, non-empty container)
triggers it, while `false`, `0`, `""`, `null` or an absent field do not. -/
theorem build_plan_memory_truthiness (path : String) (fields : List (String × Json))
    (include_todos : Bool)
    (h : (build_plan path (.ok (.obj fields)) include_todos false).skipped = false) :
    ("memory" ∈ (build_plan path (.ok (.obj fields)) include_todos false).after_extensions ↔
      pythonTruthy (getD fields "memoryEnabled") = true) := by
  simp only [build_plan] at h ⊢
  split at h
  next hcond => simp at h
  next hcond =>
    rw [if_neg hcond]
    cases hm : pythonTruthy (getD fields "memoryEnabled") <;>
      cases ht : include_todos <;> simp [hm, ht]

/-- Witness for C10: a non-empty string value of `memoryEnabled` (truthy
but not a boolean) triggers inclusion of `"memory"`. -/
theorem build_plan_memory_truthiness_witness :
    ("memory" ∈ (build_plan "ws/u1/w1.json"
        (.ok (.obj [("memoryEnabled", .str "yes")])) false false).after_extensions ↔
      pythonTruthy (getD [("memoryEnabled", .str "yes")] "memoryEnabled") = true) :=
  build_plan_memory_truthiness "ws/u1/w1.json" [("memoryEnabled", .str "yes")]
    false (by decide)

/-- The successful-application shape of `apply_one`: a success means the
file was read and re-parsed as an object, the relative path resolved, and
the resulting filesystem is exactly — backup written, temp file written and
renamed over the original — the recorded sequence of updates. -/
theorem apply_one_ok_shape (parse : String → Except String Json)
    (serialize : Json → String) (wdir bdir : String) (fs fs' : FS)
    (plan : WorkspacePlan)
    (h : apply_one parse serialize wdir bdir fs plan = .ok fs') :
    ∃ content fields rel_path,
      getKey fs plan.path = some content ∧
      parse content = .ok (.obj fields) ∧
      relativeTo plan.path wdir = some rel_path ∧
      fs' =
        (let serialized := serialize (.obj (setKey
            (setKey fields "extensionMode" (.str plan.after_mode))
            "extensions" (.arr (plan.after_extensions.map .str))))
         setKey
          (removeKey
            (setKey (setKey fs (bdir ++ "/" ++ rel_path) content)
              (plan.path ++ ".tmp") serialized)
            (plan.path ++ ".tmp"))
          plan.path serialized) := by
  unfold apply_one at h
  split at h
  · exact absurd h (by simp)
  next content hc =>
    split at h
    next e hp => simp at h
    next raw hp =>
      split at h
      next fields =>
        split at h
        next hr => simp at h
        next rel_path hr =>
          simp only [Except.ok.injEq] at h
          exact ⟨content, fields, rel_path, hc, hp, hr, h.symm⟩
      next hraw => simp at h

/-- Claim C4: a file failing JSON parsing, or whose parsed root is not an
object, plans to a skipped, unchanged plan with reason `parse-error` or
`invalid-json-root` respectively, carrying the underlying error message and
an empty after-extension state; and a skipped plan is excluded from Apply —
the apply loop performs no filesystem action and no tally change for it. -/
theorem build_plan_errors_excluded
    (path err : String) (j : Json) (include_todos force : Bool)
    (parse : String → Except String Json) (serialize : Json → String)
    (wdir bdir : String)
    (hj : ∀ fields, j ≠ .obj fields) :
    ((build_plan path (.error err) include_todos force).skipped = true ∧
     (build_plan path (.error err) include_todos force).changed = false ∧
     (build_plan path (.error err) include_todos force).reason = "parse-error" ∧
     (build_plan path (.error err) include_todos force).error = some err ∧
     (build_plan path (.error err) include_todos force).after_extensions = []) ∧
    ((build_plan path (.ok j) include_todos force).skipped = true ∧
     (build_plan path (.ok j) include_todos force).changed = false ∧
     (build_plan path (.ok j) include_todos force).reason = "invalid-json-root" ∧
     (build_plan path (.ok j) include_todos force).error =
       some "workspace file root must be a JSON object" ∧
     (build_plan path (.ok j) include_todos force).after_extensions = []) ∧
    (∀ (p : WorkspacePlan) (rest : List WorkspacePlan) (st : ApplyState),
      p.skipped = true →
      apply_plan parse serialize wdir bdir (p :: rest) st =
        apply_plan parse serialize wdir bdir rest st) := by
  refine ⟨⟨rfl, rfl, rfl, rfl, rfl⟩, ?_, ?_⟩
  · cases j with
    | obj fields => exact absurd rfl (hj fields)
    | null => exact ⟨rfl, rfl, rfl, rfl, rfl⟩
    | bool b => exact ⟨rfl, rfl, rfl, rfl, rfl⟩
    | num n => exact ⟨rfl, rfl, rfl, rfl, rfl⟩
    | str s => exact ⟨rfl, rfl, rfl, rfl, rfl⟩
    | arr items => exact ⟨rfl, rfl, rfl, rfl, rfl⟩
  · intro p rest st hp
    simp [apply_plan, hp]

/-- Witness for C4: a malformed file and a non-object root at concrete
inputs, and the skipped parse-error plan leaving the apply state
untouched. -/
theorem build_plan_errors_excluded_witness :
    (build_plan "ws/u1/w1.json" (.error "boom") true false).reason = "parse-error" ∧
    (build_plan "ws/u1/w1.json" (.ok (.arr [])) true false).reason =
      "invalid-json-root" ∧
    apply_plan parse0 serialize0 "ws" "bak"
        [build_plan "ws/u1/w1.json" (.error "boom") true false]
        ⟨[("ws/u1/w1.json", "good")], 0, 0, []⟩ =
      ⟨[("ws/u1/w1.json", "good")], 0, 0, []⟩ :=
  ⟨(build_plan_errors_excluded "ws/u1/w1.json" "boom" (.arr []) true false
      parse0 serialize0 "ws" "bak" (fun _ h => Json.noConfusion h)).1.2.2.1,
   (build_plan_errors_excluded "ws/u1/w1.json" "boom" (.arr []) true false
      parse0 serialize0 "ws" "bak" (fun _ h => Json.noConfusion h)).2.1.2.2.1,
   (build_plan_errors_excluded "ws/u1/w1.json" "boom" (.arr []) true false
      parse0 serialize0 "ws" "bak" (fun _ h => Json.noConfusion h)).2.2
     (build_plan "ws/u1/w1.json" (.error "boom") true false) []
     ⟨[("ws/u1/w1.json", "good")], 0, 0, []⟩ rfl⟩

/-- Claim C5: an exception while applying one plan is caught, counted in
the failure tally, logged with the file path and the cause, and leaves the
remaining plans to be processed from the same state; and over any batch the
changed and failed tallies together account for every changed, non-skipped
plan exactly once. -/
theorem apply_plan_failure_isolation
    (parse : String → Except String Json) (serialize : Json → String)
    (wdir bdir : String) (plan : WorkspacePlan) (rest : List WorkspacePlan)
    (st : ApplyState) (e : String)
    (hc : plan.changed = true) (hs : plan.skipped = false)
    (he : apply_one parse serialize wdir bdir st.fs plan = .error e) :
    (apply_plan parse serialize wdir bdir (plan :: rest) st =
      apply_plan parse serialize wdir bdir rest
        { st with failed := st.failed + 1,
                  log := st.log ++ [applyErrMsg plan e] }) ∧
    applyErrMsg plan e = "[error] failed to update " ++ plan.path ++ ": " ++ e ∧
    ∀ (plans : List WorkspacePlan) (st2 : ApplyState),
      (apply_plan parse serialize wdir bdir plans st2).changed +
        (apply_plan parse serialize wdir bdir plans st2).failed =
      st2.changed + st2.failed +
        (plans.filter (fun p => p.changed && !p.skipped)).length := by
  refine ⟨?_, rfl, fun plans st2 => apply_plan_count parse serialize wdir bdir plans st2⟩
  simp [apply_plan, hc, hs, he]

/-- Witness for C5: applying a plan whose file no longer parses fails,
is logged, and the loop moves on with the failure tallied. -/
theorem apply_plan_failure_isolation_witness :
    (apply_plan parse0 serialize0 "ws" "bak" [plan0]
        ⟨[("ws/u1/w1.json", "bad")], 0, 0, []⟩ =
      apply_plan parse0 serialize0 "ws" "bak" []
        { (⟨[("ws/u1/w1.json", "bad")], 0, 0, []⟩ : ApplyState) with
            failed := (⟨[("ws/u1/w1.json", "bad")], 0, 0, []⟩ : ApplyState).failed + 1,
            log := (⟨[("ws/u1/w1.json", "bad")], 0, 0, []⟩ : ApplyState).log ++
              [applyErrMsg plan0 "bad json"] }) ∧
    applyErrMsg plan0 "bad json" =
      "[error] failed to update " ++ plan0.path ++ ": " ++ "bad json" :=
  ⟨(apply_plan_failure_isolation parse0 serialize0 "ws" "bak" plan0 []
      ⟨[("ws/u1/w1.json", "bad")], 0, 0, []⟩ "bad json" rfl rfl rfl).1,
   (apply_plan_failure_isolation parse0 serialize0 "ws" "bak" plan0 []
      ⟨[("ws/u1/w1.json", "bad")], 0, 0, []⟩ "bad json" rfl rfl rfl).2.1⟩

/-- Claim C6: a successfully applied plan leaves, at the plan's path, the
serialization of the re-read object with exactly two keys set —
`extensionMode` to the plan's after-mode and `extensions` to the plan's
after-extensions — and every other key bound as in the object read from
disk at apply time. -/
theorem apply_one_frame
    (parse : String → Except String Json) (serialize : Json → String)
    (wdir bdir : String) (fs fs' : FS) (plan : WorkspacePlan)
    (h : apply_one parse serialize wdir bdir fs plan = .ok fs') :
    ∃ content fields,
      getKey fs plan.path = some content ∧
      parse content = .ok (.obj fields) ∧
      ∃ fields2,
        getKey fs' plan.path = some (serialize (.obj fields2)) ∧
        getKey fields2 "extensionMode" = some (.str plan.after_mode) ∧
        getKey fields2 "extensions" =
          some (.arr (plan.after_extensions.map .str)) ∧
        ∀ k, k ≠ "extensionMode" → k ≠ "extensions" →
          getKey fields2 k = getKey fields k := by
  obtain ⟨content, fields, rel_path, hc, hp, hr, hfs⟩ :=
    apply_one_ok_shape parse serialize wdir bdir fs fs' plan h
  subst hfs
  refine ⟨content, fields, hc, hp,
    setKey (setKey fields "extensionMode" (.str plan.after_mode))
      "extensions" (.arr (plan.after_extensions.map .str)), ?_, ?_, ?_, ?_⟩
  · exact getKey_setKey_self _ _ _
  · rw [getKey_setKey_ne _ _ _ _ (by decide)]
    exact getKey_setKey_self _ _ _
  · exact getKey_setKey_self _ _ _
  · intro k hk1 hk2
    rw [getKey_setKey_ne _ _ _ _ hk2, getKey_setKey_ne _ _ _ _ hk1]

/-- Claim C7: for every successfully applied plan whose backup path does
not collide with the migrated file or its temp sibling (distinct backup
root), the backup file under the backup root at the file's relative path
holds exactly the original file's bytes as read immediately before the
overwrite. -/
theorem apply_one_backup_fidelity
    (parse : String → Except String Json) (serialize : Json → String)
    (wdir bdir : String) (fs fs' : FS) (plan : WorkspacePlan) (rel_path : String)
    (h : apply_one parse serialize wdir bdir fs plan = .ok fs')
    (hrel : relativeTo plan.path wdir = some rel_path)
    (hb1 : bdir ++ "/" ++ rel_path ≠ plan.path)
    (hb2 : bdir ++ "/" ++ rel_path ≠ plan.path ++ ".tmp") :
    ∃ content, getKey fs plan.path = some content ∧
      getKey fs' (bdir ++ "/" ++ rel_path) = some content := by
  obtain ⟨content, fields, rel2, hc, hp, hr, hfs⟩ :=
    apply_one_ok_shape parse serialize wdir bdir fs fs' plan h
  rw [hrel] at hr
  injection hr with hr
  subst hr
  subst hfs
  refine ⟨content, hc, ?_⟩
  rw [getKey_setKey_ne _ _ _ _ hb1, getKey_removeKey_ne _ _ _ hb2,
    getKey_setKey_ne _ _ _ _ hb2]
  exact getKey_setKey_self _ _ _

/-- Witness for C6 at a concrete filesystem: the written file carries the
serialized updated object. -/
theorem apply_one_frame_witness :
    ∃ content fields,
      getKey [("ws/u1/w1.json", "good")] plan0.path = some content ∧
      parse0 content = .ok (.obj fields) ∧
      ∃ fields2,
        getKey [("ws/u1/w1.json", "SER"), ("bak/u1/w1.json", "good")] plan0.path =
          some (serialize0 (.obj fields2)) ∧
        getKey fields2 "extensionMode" = some (.str plan0.after_mode) ∧
        getKey fields2 "extensions" =
          some (.arr (plan0.after_extensions.map .str)) ∧
        ∀ k, k ≠ "extensionMode" → k ≠ "extensions" →
          getKey fields2 k = getKey fields k :=
  apply_one_frame parse0 serialize0 "ws" "bak" [("ws/u1/w1.json", "good")]
    [("ws/u1/w1.json", "SER"), ("bak/u1/w1.json", "good")] plan0 rfl

/-- Witness for C7 at a concrete filesystem: the backup file holds the
original bytes. -/
theorem apply_one_backup_fidelity_witness :
    ∃ content, getKey [("ws/u1/w1.json", "good")] plan0.path = some content ∧
      getKey [("ws/u1/w1.json", "SER"), ("bak/u1/w1.json", "good")]
        ("bak" ++ "/" ++ "u1/w1.json") = some content :=
  apply_one_backup_fidelity parse0 serialize0 "ws" "bak"
    [("ws/u1/w1.json", "good")]
    [("ws/u1/w1.json", "SER"), ("bak/u1/w1.json", "good")] plan0 "u1/w1.json"
    rfl (by decide) (by decide) (by decide)

end Migrate
